import Mathlib

/-!
Shallow embedding of the reconciliation / normalization / summary-extraction
core of `app/app.py` (functions `convert_swedish_number`,
`fix_swedish_numbers`, `merge_fragmented_tables`, `extract_summary_data`),
together with proofs about the embedded definitions.

Modelling conventions:
* Python strings are `List Char`; the regex `\d` is modelled as the ASCII
  digits (the inputs of interest here are ASCII).
* Python floats are modelled as exact rationals.  Every numeric literal the
  program compares against is a finite decimal, which denotes the same value
  on both sides, so equalities between parsed results coincide.
* A pandas cell is a `Value`: text, number, or the missing-value marker `NaN`.
* A pandas `DataFrame` is a list of column labels plus a grid of rows
  positionally aligned with the labels.
-/

/-- A spreadsheet cell value: a text cell, a numeric cell, or the pandas
missing-value marker `NaN` (written `na`). -/
inductive Value where
  | str : List Char → Value
  | num : ℚ → Value
  | na : Value
deriving DecidableEq, Repr

/-- Whitespace stripped by Python `float(str)` (the ASCII whitespace
characters; no others arise in this program, whose parsed strings start with
a digit). -/
def pyWhitespace (c : Char) : Bool :=
  c = ' ' || c = '\t' || c = '\n' || c = '\r' || c = '\x0b' || c = '\x0c'

/-- Consume a maximal run of decimal digits in which an underscore may stand
between two digits (Python's numeric-literal digit grouping); returns the
digits with underscores removed, and the unconsumed remainder. -/
def digitRun : List Char → List Char × List Char
  | [] => ([], [])
  | c :: '_' :: d :: rest2 =>
    if c.isDigit then
      if d.isDigit then
        let p := digitRun (d :: rest2)
        (c :: p.1, p.2)
      else ([c], '_' :: d :: rest2)
    else ([], c :: '_' :: d :: rest2)
  | c :: rest =>
    if c.isDigit then
      let p := digitRun rest
      (c :: p.1, p.2)
    else ([], c :: rest)

/-- A digit run that must begin with a digit (Python `float` rejects a
leading underscore or a missing digit). -/
def digitRun1 (s : List Char) : Option (List Char × List Char) :=
  match s with
  | c :: _ => if c.isDigit then some (digitRun s) else none
  | [] => none

/-- Numeric value of a list of decimal digits. -/
def digitsToNat (ds : List Char) : Nat :=
  ds.foldl (fun n c => 10 * n + (c.toNat - '0'.toNat)) 0

/-- Exponent digits of a `float` literal: an optional sign then a digit run
consuming the whole remainder. -/
def signedDigits (s : List Char) : Option Int :=
  match s with
  | '+' :: r =>
    match digitRun1 r with
    | some p => if p.2 = [] then some (digitsToNat p.1 : Int) else none
    | none => none
  | '-' :: r =>
    match digitRun1 r with
    | some p => if p.2 = [] then some (-(digitsToNat p.1 : Int)) else none
    | none => none
  | _ =>
    match digitRun1 s with
    | some p => if p.2 = [] then some (digitsToNat p.1 : Int) else none
    | none => none

/-- Exponent suffix of a `float` literal: empty, or `e`/`E` followed by a
signed digit run. -/
def expPart : List Char → Option Int
  | [] => some 0
  | 'e' :: r => signedDigits r
  | 'E' :: r => signedDigits r
  | _ => none

/-- Mantissa of a `float` literal: `.digits`, or `digits` optionally followed
by `.` and an optional fractional digit run.  Returns the value and the
unconsumed remainder. -/
def mantissa (s : List Char) : Option (ℚ × List Char) :=
  match s with
  | '.' :: r =>
    match digitRun1 r with
    | some p => some ((digitsToNat p.1 : ℚ) / (10 : ℚ) ^ p.1.length, p.2)
    | none => none
  | _ =>
    match digitRun1 s with
    | some p =>
      match p.2 with
      | '.' :: r2 =>
        match digitRun1 r2 with
        | some q =>
          some ((digitsToNat p.1 : ℚ) + (digitsToNat q.1 : ℚ) / (10 : ℚ) ^ q.1.length, q.2)
        | none => some ((digitsToNat p.1 : ℚ), r2)
      | _ => some ((digitsToNat p.1 : ℚ), p.2)
    | none => none

/-- Model of Python `float(str)`: strip surrounding whitespace, optional
sign, mantissa, optional exponent; `none` models `ValueError`.  The
`inf`/`nan` word forms and non-ASCII digits are omitted: every string this
program feeds to `float` begins with an ASCII digit. -/
def pyfloat (s : List Char) : Option ℚ :=
  let s1 := ((s.dropWhile pyWhitespace).reverse.dropWhile pyWhitespace).reverse
  let core :=
    match s1 with
    | '+' :: r => (false, r)
    | '-' :: r => (true, r)
    | _ => (false, s1)
  match mantissa core.2 with
  | some mr =>
    match expPart mr.2 with
    | some e =>
      let v : ℚ := mr.1 * (10 : ℚ) ^ e
      some (if core.1 then -v else v)
    | none => none
  | none => none

/-- The anchored regex test `re.match(r'^\d+[,\.]\d+', value)`: one or more
digits, then a single `,` or `.`, then at least one more digit, at the start
of the string.  (The regex is deterministic here because the separator class
cannot match a digit, so greedy `\d+` needs no backtracking.) -/
def decimalCandidate (s : List Char) : Bool :=
  !(s.takeWhile Char.isDigit).isEmpty &&
  match s.dropWhile Char.isDigit with
  | sep :: c :: _ => (sep == ',' || sep == '.') && c.isDigit
  | _ => false

/-- Python `value.replace(',', '.')`: every comma becomes a period. -/
def replaceComma (s : List Char) : List Char :=
  s.map fun c => if c = ',' then '.' else c

/-- The three-part repair step of `convert_swedish_number`'s one-comma,
one-period branch: split the (comma-rewritten) string on periods; if that
yields exactly three parts and the middle part is a single character, drop
the middle part and rejoin the outer parts with one period; otherwise leave
the string as it is. -/
def ocrRejoin (v : List Char) : List Char :=
  match v.splitOn '.' with
  | [p0, p1, p2] => if p1.length = 1 then p0 ++ '.' :: p2 else v
  | _ => v

/-- Embeds `convert_swedish_number` from `app/app.py`: non-strings pass
through; a string matching `^\d+[,\.]\d+` is converted when it has exactly
one comma and zero periods (comma becomes the decimal point) or exactly one
comma and one period (OCR-artifact repair via `ocrRejoin`); on a failed
parse the branch's current working string is returned (the original in the
first branch, the rewritten string in the second); all other separator
combinations return the original text. -/
def convert_swedish_number (value : Value) : Value :=
  match value with
  | .str s =>
    if decimalCandidate s then
      let comma_count := s.count ','
      let dot_count := s.count '.'
      if comma_count = 1 ∧ dot_count = 0 then
        match pyfloat (replaceComma s) with
        | some q => .num q
        | none => .str s
      else if comma_count = 1 ∧ dot_count = 1 then
        let v := ocrRejoin (replaceComma s)
        match pyfloat v with
        | some q => .num q
        | none => .str v
      else .str s
    else .str s
  | v => v

/-- A pandas DataFrame, modelled as an ordered list of column labels plus a
grid of rows positionally aligned with the labels.  (Cell access by label is
modelled as first-occurrence lookup; the fragments this program consumes have
pairwise distinct labels within one frame, for which this agrees with
pandas.) -/
structure DataFrame where
  headers : List (List Char)
  rows : List (List Value)
deriving DecidableEq, Repr

/-- pandas `DataFrame.empty`: true iff the frame has no rows or no columns. -/
def DataFrame.empty (df : DataFrame) : Bool :=
  df.rows.isEmpty || df.headers.isEmpty

/-- Cell of a row (laid out under `headers`) at column label `h`: the entry
at the first position labelled `h`, or `NaN` when the label is absent. -/
def rowLookup (headers : List (List Char)) (row : List Value) (h : List Char) : Value :=
  match headers.findIdx? (fun x => decide (x = h)) with
  | some i => row.getD i .na
  | none => .na

/-- Embeds `pd.concat([a, b], ignore_index=True)` (axis 0, outer join,
`sort=False`): with identical label lists the rows are stacked; otherwise
the result's labels are `a`'s followed by `b`'s labels not already present,
and every row is reindexed to that combined label list, absent cells
becoming `NaN`. -/
def pdConcat (a b : DataFrame) : DataFrame :=
  if b.headers = a.headers then
    ⟨a.headers, a.rows ++ b.rows⟩
  else
    let hs := a.headers ++ b.headers.filter (fun h => decide (¬ h ∈ a.headers))
    ⟨hs, a.rows.map (fun r => hs.map (rowLookup a.headers r)) ++
         b.rows.map (fun r => hs.map (rowLookup b.headers r))⟩

/-- The extractor's placeholder column prefix tested by
`table.columns[0].startswith('Unnamed')`. -/
def unnamedMarker : List Char := "Unnamed".data

/-- True iff the frame's first column label starts with the placeholder
prefix.  (On a frame with no columns `table.columns[0]` would raise in
Python; that point is unreachable in `merge_fragmented_tables`, which tests
only fragments that passed the non-empty check.) -/
def firstHeaderUnnamed (t : DataFrame) : Bool :=
  match t.headers with
  | h :: _ => unnamedMarker.isPrefixOf h
  | [] => false

/-- The continuation test of `merge_fragmented_tables`: the fragment's label
list equals the accumulator's, or its first label starts with `Unnamed`. -/
def isContinuation (cur t : DataFrame) : Bool :=
  decide (t.headers = cur.headers) || firstHeaderUnnamed t

/-- The fragment loop of `merge_fragmented_tables`: `cur` is the open
accumulator (`current_table`), the returned list is `merged` with the final
still-open accumulator appended.  Empty fragments are skipped; a
continuation is concatenated onto the accumulator; otherwise the accumulator
is closed (emitted) and the fragment starts a new one. -/
def mergeAux : Option DataFrame → List DataFrame → List DataFrame
  | none, [] => []
  | some cur, [] => [cur]
  | cur, t :: rest =>
    if t.empty then mergeAux cur rest
    else
      match cur with
      | none => mergeAux (some t) rest
      | some c =>
        if isContinuation c t then mergeAux (some (pdConcat c t)) rest
        else c :: mergeAux (some t) rest

/-- Embeds `merge_fragmented_tables` from `app/app.py`: a list of at most one
table is returned unchanged; otherwise the fragments are folded by
`mergeAux` starting with no open accumulator. -/
def merge_fragmented_tables (tables : List DataFrame) : List DataFrame :=
  if tables.length ≤ 1 then tables else mergeAux none tables

/-- Embeds `fix_swedish_numbers`: apply `convert_swedish_number` to every
string cell of the frame.  (The `dtype == 'object'` column guard is
value-transparent: any pandas column containing a string is object-dtyped,
and `convert_swedish_number` is the identity on non-strings.) -/
def fix_swedish_numbers (df : DataFrame) : DataFrame :=
  ⟨df.headers,
   df.rows.map fun r => r.map fun x =>
     match x with
     | .str s => convert_swedish_number (.str s)
     | v => v⟩

/-- Recognized `Sample` column-name variants (`sample_cols` in the code). -/
def sample_cols : List (List Char) :=
  ["Sample".data, "sample".data, "Sample Name".data, "sample name".data]

/-- Recognized concentration column-name variants (`ngul_cols`). -/
def ngul_cols : List (List Char) :=
  ["ng/ul".data, "ng/uL".data, "ng/µl".data, "Concentration".data, "concentration".data]

/-- Recognized purity-ratio column-name variants (`ratio_cols`). -/
def ratio_cols : List (List Char) :=
  ["260/280".data, "260 / 280".data, "A260/A280".data, "Ratio".data]

/-- Python substring containment `needle in hay`. -/
def occursIn (needle hay : List Char) : Bool :=
  hay.tails.any fun t => needle.isPrefixOf t

/-- The per-column test `any(s in str(col) for s in variants)`. -/
def headerMatches (variants : List (List Char)) (col : List Char) : Bool :=
  variants.any fun v => occursIn v col

/-- The column-search loop with `break`: the first label (left to right)
containing any variant as a substring. -/
def findCol (variants headers : List (List Char)) : Option (List Char) :=
  headers.find? (headerMatches variants)

/-- Embeds `extract_summary_data` from `app/app.py`: resolve the three target
columns by `findCol`; build the extracted frame with columns `Sample`,
`ng/ul`, `260/280` (those that resolved, in that order); if it is empty
(nothing resolved, or the table has no rows) return `None`, else insert the
`Source File` column in front and pass the frame through
`fix_swedish_numbers`. -/
def extract_summary_data (table : DataFrame) (source_file : List Char) : Option DataFrame :=
  let sample_col := findCol sample_cols table.headers
  let ngul_col := findCol ngul_cols table.headers
  let ratio_col := findCol ratio_cols table.headers
  let chosen : List (List Char × List Char) :=
    (match sample_col with | some c => [("Sample".data, c)] | none => []) ++
    (match ngul_col with | some c => [("ng/ul".data, c)] | none => []) ++
    (match ratio_col with | some c => [("260/280".data, c)] | none => [])
  if chosen.isEmpty || table.rows.isEmpty then none
  else
    some (fix_swedish_numbers
      ⟨"Source File".data :: chosen.map Prod.fst,
       table.rows.map fun r =>
         .str source_file :: chosen.map fun c => rowLookup table.headers r c.2⟩)

/-! ### Helper lemmas about the normalizer -/

/-- Replacing every comma by a period leaves no comma. -/
theorem replaceComma_count_comma (s : List Char) : (replaceComma s).count ',' = 0 := by
  rw [List.count_eq_zero]
  simp only [replaceComma, List.mem_map, not_exists]
  rintro c ⟨hc, heq⟩
  split_ifs at heq with h
  · exact absurd heq (by decide)
  · exact h heq

/-- The three-part rejoin step introduces no comma into a comma-free string. -/
theorem ocrRejoin_count_comma (v : List Char) (h : v.count ',' = 0) :
    (ocrRejoin v).count ',' = 0 := by
  unfold ocrRejoin
  split
  · rename_i p0 p1 p2 heq
    split
    · have hv := List.intercalate_splitOn v '.'
      rw [heq] at hv
      simp only [List.intercalate, List.intersperse, List.flatten] at hv
      rw [← hv] at h
      simp only [List.count_append, List.count_cons] at h ⊢
      omega
    · exact h
  · exact h

/-- Case shape of `convert_swedish_number` on a string: it returns a parsed
number, the original string, or (only in the one-comma-one-period branch)
the comma-rewritten, possibly middle-dropped string. -/
theorem convert_str_cases (s : List Char) :
    (∃ q, convert_swedish_number (.str s) = .num q) ∨
    convert_swedish_number (.str s) = .str s ∨
    convert_swedish_number (.str s) = .str (ocrRejoin (replaceComma s)) := by
  simp only [convert_swedish_number]
  split_ifs with h1 h2 h3
  · rcases hp : pyfloat (replaceComma s) with _ | q
    · right; left; simp [hp]
    · left; exact ⟨q, by simp [hp]⟩
  · rcases hp : pyfloat (ocrRejoin (replaceComma s)) with _ | q
    · right; right; simp [hp]
    · left; exact ⟨q, by simp [hp]⟩
  · right; left; rfl
  · right; left; rfl

/-- A comma-free string is a fixed point of the normalizer: both conversion
branches require exactly one comma. -/
theorem convert_no_comma_fixed (s : List Char) (h : s.count ',' = 0) :
    convert_swedish_number (.str s) = .str s := by
  simp only [convert_swedish_number]
  split_ifs with h1 h2 h3
  · omega
  · omega
  · rfl
  · rfl

/-! ### Claims C1, C2, C4, C9 -/

/-- C1: the normalizer maps the concrete test vectors as specified: the
string "4,141" becomes the number 4.141; "173,0.71" becomes 173.71;
"1.234.567" (two periods, no comma) is returned as unchanged text; "abc" is
returned as unchanged text; the non-text input 42 passes through
unchanged. -/
theorem C1_test_vectors :
    convert_swedish_number (.str "4,141".data) = .num (4141 / 1000) ∧
    convert_swedish_number (.str "173,0.71".data) = .num (17371 / 100) ∧
    convert_swedish_number (.str "1.234.567".data) = .str "1.234.567".data ∧
    convert_swedish_number (.str "abc".data) = .str "abc".data ∧
    convert_swedish_number (.num 42) = .num 42 :=
  ⟨by with_unfolding_all rfl, by with_unfolding_all rfl, by decide, by decide, by decide⟩

/-- C2 counterexample: on the input "1,2.3x" (one comma, one period) the
final parse fails, yet the returned text is the rewritten "1.3x", not the
original input — refuting the claim that every failed parse returns the
original text character for character. -/
theorem C2_counterexample :
    convert_swedish_number (.str "1,2.3x".data) = .str "1.3x".data ∧
    "1.3x".data ≠ "1,2.3x".data ∧
    "1,2.3x".data.count ',' = 1 ∧
    "1,2.3x".data.count '.' = 1 ∧
    pyfloat (ocrRejoin (replaceComma "1,2.3x".data)) = none :=
  ⟨by with_unfolding_all rfl, by decide, by decide, by decide, by decide⟩

/-- C2 amended: when the candidate pattern matches, a failed final parse in
the one-comma-zero-period branch returns the original text unchanged, while
in the one-comma-one-period branch it returns the comma-to-period-rewritten
text with the single-character middle part dropped when the three-part shape
matched (not, in general, the original text); in both branches no exception
reaches the caller (the parse is embedded as an `Option` and both outcomes
produce a value). -/
theorem C2_amended (s : List Char) (hcand : decimalCandidate s = true) :
    (s.count ',' = 1 → s.count '.' = 0 → pyfloat (replaceComma s) = none →
      convert_swedish_number (.str s) = .str s) ∧
    (s.count ',' = 1 → s.count '.' = 1 →
      pyfloat (ocrRejoin (replaceComma s)) = none →
      convert_swedish_number (.str s) = .str (ocrRejoin (replaceComma s))) := by
  constructor
  · intro h1 h2 hp
    simp [convert_swedish_number, hcand, h1, h2, hp]
  · intro h1 h2 hp
    simp [convert_swedish_number, hcand, h1, h2, hp]

/-- Witness for C2 amended at the concrete failing input "1,2a". -/
theorem C2_amended_witness :
    convert_swedish_number (.str "1,2a".data) = .str "1,2a".data :=
  (C2_amended "1,2a".data (by decide)).1 (by decide) (by decide) (by decide)

/-- C4: the normalizer is idempotent: applying it twice to any cell value
(string, number, or missing marker) gives the same result as applying it
once. -/
theorem C4_idempotent (x : Value) :
    convert_swedish_number (convert_swedish_number x) = convert_swedish_number x := by
  cases x with
  | na => rfl
  | num q => rfl
  | str s =>
    rcases convert_str_cases s with ⟨q, hq⟩ | h | h
    · rw [hq]; rfl
    · rw [h]; exact h
    · rw [h]
      exact convert_no_comma_fixed _
        (ocrRejoin_count_comma _ (replaceComma_count_comma s))

/-! ### Helper lemmas about the reconciler -/

/-- Total number of data rows over a list of frames. -/
def totalRows (ts : List DataFrame) : Nat :=
  (ts.map fun t => t.rows.length).sum

theorem totalRows_nil : totalRows [] = 0 := rfl

theorem totalRows_cons (t : DataFrame) (ts : List DataFrame) :
    totalRows (t :: ts) = t.rows.length + totalRows ts := by
  simp [totalRows]

/-- Concatenation stacks the rows, so row counts add. -/
theorem pdConcat_rows_length (a b : DataFrame) :
    (pdConcat a b).rows.length = a.rows.length + b.rows.length := by
  unfold pdConcat
  split <;> simp

/-- A frame is non-empty exactly when it has at least one row and at least
one column. -/
theorem empty_eq_false_iff (df : DataFrame) :
    df.empty = false ↔ df.rows ≠ [] ∧ df.headers ≠ [] := by
  simp [DataFrame.empty]

/-- Concatenating two non-empty frames yields a non-empty frame. -/
theorem pdConcat_not_empty (a b : DataFrame)
    (ha : a.empty = false) (hb : b.empty = false) :
    (pdConcat a b).empty = false := by
  rw [empty_eq_false_iff] at ha hb ⊢
  unfold pdConcat
  split
  · exact ⟨by simp [ha.1], by simpa using ha.2⟩
  · exact ⟨by simp [ha.1], by simp [ha.2]⟩

/-- One unfolding step of the fragment loop with no open accumulator. -/
theorem mergeAux_cons_none (t : DataFrame) (rest : List DataFrame) :
    mergeAux none (t :: rest) =
      if t.empty then mergeAux none rest else mergeAux (some t) rest := rfl

/-- One unfolding step of the fragment loop with an open accumulator. -/
theorem mergeAux_cons_some (c t : DataFrame) (rest : List DataFrame) :
    mergeAux (some c) (t :: rest) =
      if t.empty then mergeAux (some c) rest
      else if isContinuation c t then mergeAux (some (pdConcat c t)) rest
      else c :: mergeAux (some t) rest := rfl

/-- An empty fragment anywhere in the remaining input is invisible to the
fragment loop. -/
theorem mergeAux_append_skip (xs ys : List DataFrame) (e : DataFrame)
    (he : e.empty = true) :
    ∀ cur, mergeAux cur (xs ++ e :: ys) = mergeAux cur (xs ++ ys) := by
  induction xs with
  | nil =>
    intro cur
    simp only [List.nil_append]
    cases cur with
    | none => rw [mergeAux_cons_none, if_pos he]
    | some c => rw [mergeAux_cons_some, if_pos he]
  | cons x xs ih =>
    intro cur
    simp only [List.cons_append]
    cases cur with
    | none =>
      rw [mergeAux_cons_none, mergeAux_cons_none]
      by_cases hx : x.empty = true
      · simp only [hx, if_true, ih]
      · simp only [hx, if_false, ih]
    | some c =>
      rw [mergeAux_cons_some, mergeAux_cons_some]
      by_cases hx : x.empty = true
      · simp only [hx, if_true, ih]
      · by_cases hc : isContinuation c x = true
        · simp only [hx, hc, if_true, if_false, ih]
        · simp only [hx, hc, if_false, ih]

/-- Every frame the fragment loop emits is non-empty, provided the open
accumulator (if any) is. -/
theorem mergeAux_all_not_empty (ts : List DataFrame) :
    ∀ cur : Option DataFrame, (∀ c, cur = some c → c.empty = false) →
      ∀ df ∈ mergeAux cur ts, df.empty = false := by
  induction ts with
  | nil =>
    intro cur hcur df hdf
    cases cur with
    | none => simp [mergeAux] at hdf
    | some c =>
      simp only [mergeAux, List.mem_singleton] at hdf
      subst hdf
      exact hcur df rfl
  | cons t rest ih =>
    intro cur hcur df hdf
    by_cases ht : t.empty = true
    · cases cur with
      | none =>
        rw [mergeAux_cons_none, if_pos ht] at hdf
        exact ih none hcur df hdf
      | some c =>
        rw [mergeAux_cons_some, if_pos ht] at hdf
        exact ih (some c) hcur df hdf
    · have ht' : t.empty = false := by simpa using ht
      cases cur with
      | none =>
        rw [mergeAux_cons_none, if_neg ht] at hdf
        exact ih (some t) (by intro c hc; cases hc; exact ht') df hdf
      | some c =>
        have hc : c.empty = false := hcur c rfl
        rw [mergeAux_cons_some, if_neg ht] at hdf
        by_cases hcont : isContinuation c t = true
        · rw [if_pos hcont] at hdf
          exact ih _ (by intro d hd; cases hd; exact pdConcat_not_empty c t hc ht') df hdf
        · rw [if_neg hcont] at hdf
          rcases List.mem_cons.mp hdf with h | h
          · subst h; exact hc
          · exact ih (some t) (by intro d hd; cases hd; exact ht') df h

/-- Row count carried by an optional open accumulator. -/
def curRows : Option DataFrame → Nat
  | none => 0
  | some c => c.rows.length

theorem curRows_none : curRows none = 0 := rfl

theorem curRows_some (c : DataFrame) : curRows (some c) = c.rows.length := rfl

/-- The fragment loop conserves rows: it emits exactly the accumulator's rows
plus the rows of the non-empty remaining fragments. -/
theorem mergeAux_totalRows (ts : List DataFrame) :
    ∀ cur : Option DataFrame,
      totalRows (mergeAux cur ts) =
        curRows cur + totalRows (ts.filter fun t => !t.empty) := by
  induction ts with
  | nil => intro cur; cases cur <;> simp [mergeAux, totalRows, curRows]
  | cons t rest ih =>
    intro cur
    by_cases ht : t.empty = true
    · have hfil : (t :: rest).filter (fun t => !t.empty) =
          rest.filter (fun t => !t.empty) := by
        simp [List.filter_cons, ht]
      cases cur with
      | none => rw [mergeAux_cons_none, if_pos ht, hfil]; exact ih none
      | some c => rw [mergeAux_cons_some, if_pos ht, hfil]; exact ih (some c)
    · have ht' : t.empty = false := by simpa using ht
      have hfil : (t :: rest).filter (fun t => !t.empty) =
          t :: rest.filter (fun t => !t.empty) := by
        simp [List.filter_cons, ht']
      cases cur with
      | none =>
        rw [mergeAux_cons_none, if_neg ht, hfil, totalRows_cons, ih (some t),
          curRows_none, curRows_some]
        omega
      | some c =>
        rw [mergeAux_cons_some, if_neg ht, hfil, totalRows_cons, curRows_some]
        by_cases hcont : isContinuation c t = true
        · rw [if_pos hcont, ih (some (pdConcat c t)), curRows_some,
            pdConcat_rows_length]
          omega
        · rw [if_neg hcont, totalRows_cons, ih (some t), curRows_some]

/-! ### Claims C3, C5, C6, C10 -/

/-- C3 counterexample: a one-column fragment labelled "Unnamed: 0" merged as
a continuation into a one-column accumulator labelled "A" yields a table
whose header sequence is ["A", "Unnamed: 0"], not the accumulator's ["A"]
unchanged — `pd.concat` outer-joins the columns. -/
theorem C3_counterexample :
    merge_fragmented_tables
        [⟨["A".data], [[.str "a1".data]]⟩, ⟨["Unnamed: 0".data], [[.str "b1".data]]⟩] =
      [⟨["A".data, "Unnamed: 0".data],
        [[.str "a1".data, .na], [.na, .str "b1".data]]⟩] ∧
    ["A".data, "Unnamed: 0".data] ≠ ["A".data] :=
  ⟨by decide, by decide⟩

/-- C3 amended: a non-empty fragment whose first header begins with the
continuation placeholder prefix merges into the open accumulator via
`pd.concat`: when the fragment's header sequence equals the accumulator's,
the headers stay unchanged and the fragment's rows are appended in order;
otherwise the resulting headers are the accumulator's followed by the
fragment's headers not already present, and the resulting rows are the
accumulator's rows followed by the fragment's rows in order, each reindexed
to the combined headers with missing cells marked `NaN`. -/
theorem C3_amended (a t : DataFrame)
    (ha : a.empty = false) (ht : t.empty = false)
    (hu : firstHeaderUnnamed t = true) :
    merge_fragmented_tables [a, t] = [pdConcat a t] ∧
    (t.headers = a.headers → pdConcat a t = ⟨a.headers, a.rows ++ t.rows⟩) ∧
    (t.headers ≠ a.headers →
      (pdConcat a t).headers =
        a.headers ++ t.headers.filter (fun h => decide (¬ h ∈ a.headers)) ∧
      (pdConcat a t).rows =
        a.rows.map (fun r => (pdConcat a t).headers.map (rowLookup a.headers r)) ++
        t.rows.map (fun r => (pdConcat a t).headers.map (rowLookup t.headers r))) := by
  refine ⟨?_, ?_, ?_⟩
  · unfold merge_fragmented_tables
    rw [if_neg (by simp)]
    rw [mergeAux_cons_none, if_neg (by simp [ha])]
    rw [mergeAux_cons_some, if_neg (by simp [ht])]
    rw [if_pos (by simp [isContinuation, hu])]
    rfl
  · intro h
    simp [pdConcat, h]
  · intro h
    constructor
    · simp [pdConcat, h]
    · simp [pdConcat, h]

/-- Witness for C3 amended on concrete one-column frames. -/
theorem C3_amended_witness :
    merge_fragmented_tables
        [⟨["A".data], [[Value.na]]⟩, ⟨["Unnamed: 0".data], [[Value.na]]⟩] =
      [pdConcat ⟨["A".data], [[Value.na]]⟩ ⟨["Unnamed: 0".data], [[Value.na]]⟩] :=
  (C3_amended ⟨["A".data], [[Value.na]]⟩ ⟨["Unnamed: 0".data], [[Value.na]]⟩
    (by decide) (by decide) (by decide)).1

/-- C5 counterexample: a fragment sequence consisting of exactly one
zero-row fragment is returned unchanged (the length ≤ 1 early return), so
the empty fragment does appear in the reconciler's output — refuting the
claim for every input sequence. -/
theorem C5_counterexample :
    merge_fragmented_tables [⟨["A".data], []⟩] = [⟨["A".data], []⟩] ∧
    (⟨["A".data], []⟩ : DataFrame).rows = [] :=
  ⟨by decide, rfl⟩

/-- C5 amended: for input sequences long enough that reconciliation actually
runs (the surrounding sequence of length at least 2; a sequence of length at
most 1 is returned unchanged, so a lone empty fragment passes through),
empty fragments are invisible — dropping one changes nothing, in particular
an empty fragment between two real fragments is not a boundary — and every
table in the output is non-empty; processing is total, so nothing raises. -/
theorem C5_amended (xs ys : List DataFrame) (e : DataFrame)
    (he : e.empty = true) (h2 : 2 ≤ (xs ++ ys).length) :
    merge_fragmented_tables (xs ++ e :: ys) = merge_fragmented_tables (xs ++ ys) ∧
    ∀ df ∈ merge_fragmented_tables (xs ++ e :: ys), df.empty = false := by
  have hlen : 2 ≤ (xs ++ e :: ys).length := by
    simp only [List.length_append, List.length_cons] at h2 ⊢
    omega
  constructor
  · unfold merge_fragmented_tables
    rw [if_neg (by omega), if_neg (by omega)]
    exact mergeAux_append_skip xs ys e he none
  · unfold merge_fragmented_tables
    rw [if_neg (by omega)]
    exact mergeAux_all_not_empty _ none (by intro c hc; simp at hc)

/-- Witness for C5 amended: an empty fragment between two real fragments is
dropped without acting as a boundary. -/
theorem C5_amended_witness :
    merge_fragmented_tables
        [⟨["A".data], [[Value.na]]⟩, ⟨["B".data], []⟩, ⟨["C".data], [[Value.na]]⟩] =
      merge_fragmented_tables [⟨["A".data], [[Value.na]]⟩, ⟨["C".data], [[Value.na]]⟩] :=
  (C5_amended [⟨["A".data], [[Value.na]]⟩] [⟨["C".data], [[Value.na]]⟩]
    ⟨["B".data], []⟩ (by decide) (by decide)).1

/-- C6: reconciling a single non-empty fragment returns exactly that table
(identical headers and rows), and reconciling two consecutive non-empty
fragments with identical header sequences returns one table whose rows are
the concatenation of both fragments' rows in order (under the shared
headers). -/
theorem C6_singleton_and_pair (a b t : DataFrame)
    (ht : t.empty = false) (ha : a.empty = false) (hb : b.empty = false)
    (hab : b.headers = a.headers) :
    merge_fragmented_tables [t] = [t] ∧
    merge_fragmented_tables [a, b] = [⟨a.headers, a.rows ++ b.rows⟩] := by
  constructor
  · rfl
  · unfold merge_fragmented_tables
    rw [if_neg (by simp)]
    rw [mergeAux_cons_none, if_neg (by simp [ha])]
    rw [mergeAux_cons_some, if_neg (by simp [hb])]
    rw [if_pos (by simp [isContinuation, hab])]
    simp [mergeAux, pdConcat, hab]

/-- Witness for C6 on concrete one-column fragments. -/
theorem C6_singleton_and_pair_witness :
    merge_fragmented_tables [⟨["H".data], [[Value.na]]⟩] = [⟨["H".data], [[Value.na]]⟩] :=
  (C6_singleton_and_pair ⟨["H".data], [[Value.str "x".data]]⟩
    ⟨["H".data], [[Value.str "y".data]]⟩ ⟨["H".data], [[Value.na]]⟩
    (by decide) (by decide) (by decide) (by decide)).1

/-- C10: for every fragment sequence of length at least 2, the reconciler
conserves rows — the total row count over the output tables equals the total
row count over the non-empty input fragments. -/
theorem C10_row_conservation (ts : List DataFrame) (h2 : 2 ≤ ts.length) :
    totalRows (merge_fragmented_tables ts) =
      totalRows (ts.filter fun t => !t.empty) := by
  unfold merge_fragmented_tables
  rw [if_neg (by omega)]
  simpa [curRows_none] using mergeAux_totalRows ts none

/-- Witness for C10 on a concrete two-fragment input with an empty frame. -/
theorem C10_row_conservation_witness :
    totalRows (merge_fragmented_tables [⟨["H".data], [[Value.na]]⟩, ⟨[], []⟩]) =
      totalRows ([⟨["H".data], [[Value.na]]⟩, ⟨[], []⟩].filter fun t => !t.empty) :=
  C10_row_conservation [⟨["H".data], [[Value.na]]⟩, ⟨[], []⟩] (by decide)

/-! ### Helper lemma about the resolver -/

/-- Characterization of the column search: a found label satisfies the
variant test and sits at a position all of whose predecessors fail it. -/
theorem findCol_first (vs : List (List Char)) :
    ∀ (hs : List (List Char)) (c : List Char), findCol vs hs = some c →
      headerMatches vs c = true ∧
      ∃ i : Nat, hs[i]? = some c ∧
        ∀ (j : Nat) (g : List Char), j < i → hs[j]? = some g →
          headerMatches vs g = false := by
  intro hs
  induction hs with
  | nil => intro c hc; simp [findCol] at hc
  | cons a as ih =>
    intro c hc
    by_cases hm : headerMatches vs a = true
    · rw [findCol, List.find?_cons_of_pos _ hm] at hc
      cases hc
      refine ⟨hm, 0, by simp, ?_⟩
      intro j g hj
      omega
    · rw [findCol, List.find?_cons_of_neg _ (by simpa using hm)] at hc
      rcases ih c hc with ⟨hmc, i, hi, hbefore⟩
      refine ⟨hmc, i + 1, by simpa using hi, ?_⟩
      intro j g hj hg
      cases j with
      | zero =>
        simp only [List.getElem?_cons_zero, Option.some.injEq] at hg
        subst hg
        simpa using hm
      | succ k =>
        simp only [List.getElem?_cons_succ] at hg
        exact hbefore k g (by omega) hg

/-! ### Claims C7, C8 -/

/-- C7: on the table with headers ["Sample Name", "ng/uL", "Other"] and one
row ["S1", "4,141", "x"], the resolver with source label "doc1" yields the
record with source "doc1", sample "S1" and concentration the number 4.141
(normalized), and no purity-ratio field; and in general, for each target
field the first table header (left to right) containing any variant string
as a substring is chosen — every earlier header fails the variant test, so
later matching headers are ignored. -/
theorem C7_resolver :
    extract_summary_data
        ⟨["Sample Name".data, "ng/uL".data, "Other".data],
         [[.str "S1".data, .str "4,141".data, .str "x".data]]⟩ "doc1".data =
      some ⟨["Source File".data, "Sample".data, "ng/ul".data],
            [[.str "doc1".data, .str "S1".data, .num (4141 / 1000)]]⟩ ∧
    ∀ (vs hs : List (List Char)) (c : List Char),
      findCol vs hs = some c →
      headerMatches vs c = true ∧
      ∃ i : Nat, hs[i]? = some c ∧
        ∀ (j : Nat) (g : List Char), j < i → hs[j]? = some g →
          headerMatches vs g = false := by
  constructor
  · with_unfolding_all rfl
  · exact findCol_first

/-- Witness for C7's first-match property at a concrete header list whose
first header fails the concentration variants and whose second matches. -/
theorem C7_resolver_witness :
    headerMatches ngul_cols "ng/uL".data = true :=
  (C7_resolver.2 ngul_cols ["Sample Name".data, "ng/uL".data] "ng/uL".data (by decide)).1

/-- C8 counterexample: on a zero-row table whose header "Sample Name" does
resolve the sample field, the resolver yields no record (the extracted frame
is empty for lack of rows) — refuting the claimed "record iff some field
resolved" equivalence. -/
theorem C8_counterexample :
    findCol sample_cols ["Sample Name".data] = some "Sample Name".data ∧
    extract_summary_data ⟨["Sample Name".data], []⟩ "d".data = none :=
  ⟨by decide, by decide⟩

/-- C8 amended: the resolver yields a record iff at least one of the three
target fields resolved to a column AND the table has at least one row; when
nothing matches (or the table is zero-row) it yields the absent result and
does not raise (the embedding is total); and a produced record's columns are
exactly the source label plus the resolved fields — unresolved fields are
absent, not null-filled. -/
theorem C8_amended (table : DataFrame) (source : List Char) :
    ((extract_summary_data table source).isSome ↔
      (((findCol sample_cols table.headers).isSome ∨
        (findCol ngul_cols table.headers).isSome ∨
        (findCol ratio_cols table.headers).isSome) ∧ table.rows ≠ [])) ∧
    (∀ r, extract_summary_data table source = some r →
      r.headers = "Source File".data ::
        ((match findCol sample_cols table.headers with
          | some _ => ["Sample".data]
          | none => []) ++
         (match findCol ngul_cols table.headers with
          | some _ => ["ng/ul".data]
          | none => []) ++
         (match findCol ratio_cols table.headers with
          | some _ => ["260/280".data]
          | none => []))) := by
  rcases hs : findCol sample_cols table.headers with _ | cs <;>
    rcases hn : findCol ngul_cols table.headers with _ | cn <;>
      rcases hr : findCol ratio_cols table.headers with _ | cr <;>
        rcases hrow : table.rows with _ | ⟨r0, rs⟩ <;>
          constructor <;>
            simp [extract_summary_data, hs, hn, hr, hrow, fix_swedish_numbers]

/-- Witness for C8 amended at a concrete one-column, one-row table. -/
theorem C8_amended_witness :
    (⟨["Source File".data, "Sample".data],
      [[Value.str "d".data, Value.na]]⟩ : DataFrame).headers =
      "Source File".data ::
        ((match findCol sample_cols ["Sample".data] with
          | some _ => ["Sample".data]
          | none => []) ++
         (match findCol ngul_cols ["Sample".data] with
          | some _ => ["ng/ul".data]
          | none => []) ++
         (match findCol ratio_cols ["Sample".data] with
          | some _ => ["260/280".data]
          | none => [])) :=
  (C8_amended ⟨["Sample".data], [[Value.na]]⟩ "d".data).2
    ⟨["Source File".data, "Sample".data], [[Value.str "d".data, Value.na]]⟩ (by decide)

/-- C9: the normalizer is total on string inputs: for every string it
returns either a parsed number or a string (never the missing marker, and —
the embedding being a total function in which the only fallible step, the
final numeric parse, is an `Option` whose `none` case is handled — no
exception escapes). -/
theorem C9_total_on_strings (s : List Char) :
    (∃ q, convert_swedish_number (.str s) = .num q) ∨
    (∃ t, convert_swedish_number (.str s) = .str t) := by
  rcases convert_str_cases s with h | h | h
  · exact Or.inl h
  · exact Or.inr ⟨s, h⟩
  · exact Or.inr ⟨_, h⟩
